import Mathlib

/-!
Verification of the smart-contract source-analysis engine
(`backend/services/analyzer.js` and the `/api/analyze` route of the backend
server) against its natural-language specification.

The JavaScript code is shallowly embedded: every function of the analyzer
class becomes a Lean definition of the same name, translated clause by
clause.  JavaScript strings are Lean `String`s, `String.prototype.includes`
becomes `jsIncludes`, `toLowerCase` becomes `jsToLower` (ASCII, which covers
every string the analyzer compares), numbers that hold the risk score become
`Int` with the final `Math.min/Math.max` clamp kept explicit, and the regex
scans of the structural extractor and of the manual-ABI builder are compiled
pattern by pattern into executable scanners over `List Char`.
-/

/-! Section: String primitives mirroring the JavaScript ones -/

/-- ASCII lower-casing of one character, as `String.prototype.toLowerCase`
acts on the ASCII range (the analyzer only compares ASCII keywords). -/
def asciiLower (c : Char) : Char :=
  if 'A' ≤ c ∧ c ≤ 'Z' then Char.ofNat (c.toNat + 32) else c

/-- JavaScript `s.toLowerCase()` restricted to ASCII. -/
def jsToLower (s : String) : String :=
  String.mk (s.toList.map asciiLower)

/-- Whether `sub` occurs as a contiguous sublist of `hay`. -/
def listContainsSub : List Char → List Char → Bool
  | [], sub => sub.isEmpty
  | c :: t, sub => sub.isPrefixOf (c :: t) || listContainsSub t sub

/-- JavaScript `hay.includes(sub)`: substring containment. -/
def jsIncludes (hay sub : String) : Bool :=
  listContainsSub hay.toList sub.toList

/-- The whitespace class of JavaScript regular expressions and of
`String.prototype.trim`, restricted to the ASCII characters that can occur
in the analyzed sources. -/
def isJsWs (c : Char) : Bool :=
  c = ' ' || c = '\t' || c = '\n' || c = '\r' || c = '\x0b' || c = '\x0c'

/-- JavaScript `s.trim()` (ASCII whitespace). -/
def jsTrim (s : String) : String :=
  String.mk (((s.toList.dropWhile isJsWs).reverse.dropWhile isJsWs).reverse)

/-- Splitting on a newline character, as JavaScript `s.split('\n')`:
the result always has one more entry than the number of newlines. -/
def splitLinesAux : List Char → List Char → List (List Char)
  | [], acc => [acc.reverse]
  | c :: t, acc =>
    if c = '\n' then acc.reverse :: splitLinesAux t [] else splitLinesAux t (c :: acc)

/-- JavaScript `sourceCode.split('\n')`. -/
def jsSplitNewline (s : String) : List String :=
  (splitLinesAux s.toList []).map String.mk

/-- JavaScript `s.endsWith(c)` for a one-character suffix. -/
def jsEndsWithChar (s : String) (c : Char) : Bool :=
  match s.toList.getLast? with
  | some d => d = c
  | none => false

/-! Section: Diagnostic records (the normalized shapes produced by the backends) -/

/-- One security diagnostic, the object shape pushed by `runSlither` and by
`detectManualVulnerabilities`. -/
structure Bug where
  name : String
  description : String
  severity : String
  confidence : String
  line : Nat
  function : String
  file : String
deriving DecidableEq, Repr

/-- One style diagnostic, the object shape pushed by `runSolhint` and by
`detectBasicLintingIssues`. -/
structure LintIssue where
  rule : String
  severity : String
  message : String
  line : Nat
  column : Nat
deriving DecidableEq, Repr

/-! Section: Risk scorer and grader (`computeRiskScore`, `computeAuditGrade`) -/

/-- The `switch ((bug.severity || '').toLowerCase())` of `computeRiskScore`:
High adds 25, Medium 15, Low 5, Informational 1, anything else 0. -/
def securitySeverityScore (severity : String) : Int :=
  if jsToLower severity = "high" then 25
  else if jsToLower severity = "medium" then 15
  else if jsToLower severity = "low" then 5
  else if jsToLower severity = "informational" then 1
  else 0

/-- The solhint branch of `computeRiskScore`: error adds 3, warning 1,
anything else 0. -/
def lintSeverityScore (severity : String) : Int :=
  if jsToLower severity = "error" then 3
  else if jsToLower severity = "warning" then 1
  else 0

/-- Function `computeRiskScore(slitherResults, solhintResults)`: accumulate the
per-severity weights over both diagnostic lists, then
`Math.min(100, Math.max(0, score))`. -/
def computeRiskScore (slitherResults : List Bug) (solhintResults : List LintIssue) : Int :=
  let score := slitherResults.foldl (fun acc bug => acc + securitySeverityScore bug.severity) 0
  let score := solhintResults.foldl (fun acc issue => acc + lintSeverityScore issue.severity) score
  min 100 (max 0 score)

/-- Function `computeAuditGrade(riskScore, slitherResults, solhintResults)`: grade C on
a proxy/upgradeable, mint/unrestricted or suicide/selfdestruct name marker or
a score above 70, otherwise B above 40, otherwise A.  The third parameter is
accepted and ignored exactly as in the source. -/
def computeAuditGrade (riskScore : Int) (slitherResults : List Bug)
    (solhintResults : List LintIssue) : String :=
  let hasProxyUpgradeable := slitherResults.any fun bug =>
    jsIncludes (jsToLower bug.name) "proxy" || jsIncludes (jsToLower bug.name) "upgradeable"
  let hasUnrestrictedMint := slitherResults.any fun bug =>
    jsIncludes (jsToLower bug.name) "mint" || jsIncludes (jsToLower bug.name) "unrestricted"
  let hasKillSwitch := slitherResults.any fun bug =>
    jsIncludes (jsToLower bug.name) "suicide" || jsIncludes (jsToLower bug.name) "selfdestruct"
  if hasProxyUpgradeable || hasUnrestrictedMint || hasKillSwitch || decide (riskScore > 70) then
    "C"
  else if riskScore > 40 then "B"
  else "A"

/-! Section: Heuristic detector backends -/

/-- Function `detectManualVulnerabilities(sourceCode)`: the eight pattern rules over
the lowercased source, each contributing zero or one fixed diagnostic, in
source order. -/
def detectManualVulnerabilities (sourceCode : String) : List Bug :=
  let lowerCode := jsToLower sourceCode
  (if jsIncludes lowerCode "call" && jsIncludes lowerCode "external"
      && !jsIncludes lowerCode "reentrancyguard" then
    [{ name := "Potential Reentrancy",
       description := "External calls without reentrancy protection detected",
       severity := "High", confidence := "Medium", line := 1,
       function := "Multiple", file := "contract.sol" }]
   else []) ++
  (if jsIncludes lowerCode "call" && !jsIncludes lowerCode "require"
      && !jsIncludes lowerCode "assert" then
    [{ name := "Unchecked External Call",
       description := "External calls without proper error handling",
       severity := "Medium", confidence := "Medium", line := 1,
       function := "Multiple", file := "contract.sol" }]
   else []) ++
  (if jsIncludes lowerCode "uint" && !jsIncludes lowerCode "pragma solidity ^0.8"
      && !jsIncludes lowerCode "pragma solidity 0.8" then
    [{ name := "Potential Integer Overflow",
       description := "Integer operations without overflow protection (pre-Solidity 0.8.0)",
       severity := "Medium", confidence := "High", line := 1,
       function := "Multiple", file := "contract.sol" }]
   else []) ++
  (if jsIncludes lowerCode "delegatecall" then
    [{ name := "Dangerous Delegatecall",
       description := "Delegatecall detected - potential for code injection",
       severity := "High", confidence := "High", line := 1,
       function := "Multiple", file := "contract.sol" }]
   else []) ++
  (if jsIncludes lowerCode "tx.origin" then
    [{ name := "tx.origin Usage",
       description := "tx.origin used instead of msg.sender - potential phishing vulnerability",
       severity := "Medium", confidence := "High", line := 1,
       function := "Multiple", file := "contract.sol" }]
   else []) ++
  (if jsIncludes lowerCode "block.timestamp" then
    [{ name := "Block Timestamp Dependency",
       description := "Block timestamp used - vulnerable to miner manipulation",
       severity := "Low", confidence := "High", line := 1,
       function := "Multiple", file := "contract.sol" }]
   else []) ++
  (if jsIncludes lowerCode "function" && jsIncludes lowerCode "external"
      && !jsIncludes lowerCode "modifier" && !jsIncludes lowerCode "onlyowner" then
    [{ name := "Potential Access Control Issue",
       description := "External functions without access control modifiers",
       severity := "Medium", confidence := "Low", line := 1,
       function := "Multiple", file := "contract.sol" }]
   else []) ++
  (if jsIncludes lowerCode "selfdestruct" || jsIncludes lowerCode "suicide" then
    [{ name := "Self-Destruct Function",
       description := "Contract can be destroyed - potential loss of funds",
       severity := "High", confidence := "High", line := 1,
       function := "Multiple", file := "contract.sol" }]
   else [])

/-- The per-line checks of `detectBasicLintingIssues`, with `index` the
zero-based line number and `lines` the whole split source (the
consecutive-blank-lines rule looks at `lines[index + 1]`, whose JavaScript
truthiness test rejects a genuinely empty next line). -/
def lintLineChecks (lines : List String) (index : Nat) (line : String) : List LintIssue :=
  let trimmedLine := jsTrim line
  (if index = 0 && !jsIncludes trimmedLine "SPDX-License-Identifier" then
    [{ rule := "spdx-license-identifier", severity := "warning",
       message := "Missing SPDX license identifier", line := index + 1, column := 1 }]
   else []) ++
  (if trimmedLine.length > 120 then
    [{ rule := "max-line-length", severity := "warning",
       message := "Line too long (max 120 characters)", line := index + 1, column := 1 }]
   else []) ++
  (if trimmedLine = "" &&
      (match lines.get? (index + 1) with
       | some next => next ≠ "" && jsTrim next = ""
       | none => false) then
    [{ rule := "no-consecutive-blank-lines", severity := "warning",
       message := "Multiple consecutive blank lines", line := index + 1, column := 1 }]
   else []) ++
  (if jsEndsWithChar line ' ' || jsEndsWithChar line '\t' then
    [{ rule := "no-trailing-whitespace", severity := "warning",
       message := "Trailing whitespace", line := index + 1, column := line.length }]
   else [])

/-- Function `detectBasicLintingIssues(sourceCode)`: line-oriented style checks over
`sourceCode.split('\n')`. -/
def detectBasicLintingIssues (sourceCode : String) : List LintIssue :=
  let lines := jsSplitNewline sourceCode
  (lines.enum.map fun p => lintLineChecks lines p.1 p.2).flatten

/-! Section: Unsafe patterns, token type, deployment warnings -/

/-- Function `detectUnsafePatterns(sourceCode)`: the fixed substring checklist over the
lowercased source. -/
def detectUnsafePatterns (sourceCode : String) : List String :=
  let lowerCode := jsToLower sourceCode
  (if jsIncludes lowerCode "selfdestruct" || jsIncludes lowerCode "suicide" then
    ["Kill Switch - Contract can be destroyed"] else []) ++
  (if jsIncludes lowerCode "delegatecall" then
    ["Delegate Call - Potential for code injection"] else []) ++
  (if jsIncludes lowerCode "assembly" then
    ["Assembly Code - Low-level operations"] else []) ++
  (if jsIncludes lowerCode "tx.origin" then
    ["tx.origin Usage - Potential phishing vulnerability"] else []) ++
  (if jsIncludes lowerCode "block.timestamp" then
    ["Block Timestamp - Time manipulation risk"] else []) ++
  (if jsIncludes lowerCode "block.number" then
    ["Block Number - Block manipulation risk"] else [])

/-- Function `detectTokenType(sourceCode)`: first matching category marker wins. -/
def detectTokenType (sourceCode : String) : String :=
  let lowerCode := jsToLower sourceCode
  if jsIncludes lowerCode "erc20" || jsIncludes lowerCode "ierc20" then "ERC20"
  else if jsIncludes lowerCode "erc721" || jsIncludes lowerCode "ierc721" then "ERC721"
  else if jsIncludes lowerCode "erc1155" || jsIncludes lowerCode "ierc1155" then "ERC1155"
  else if jsIncludes lowerCode "uniswap" || jsIncludes lowerCode "pancakeswap"
      || jsIncludes lowerCode "amm" then "DeFi"
  else if jsIncludes lowerCode "governance" || jsIncludes lowerCode "dao" then "Governance"
  else if jsIncludes lowerCode "nft" || jsIncludes lowerCode "token" then "Token"
  else "Custom"

/-- Function `generateDeploymentWarnings(slitherResults, solhintResults)`: a count
warning when some diagnostic has severity exactly `'High'`, and a critical
warning when some diagnostic name contains `'reentrancy'`, `'overflow'` or
`'access-control'` (both checks case-sensitive, as in the source). -/
def generateDeploymentWarnings (slitherResults : List Bug)
    (solhintResults : List LintIssue) : List String :=
  let highSeverityBugs := slitherResults.filter fun bug => bug.severity == "High"
  let criticalBugs := slitherResults.filter fun bug =>
    jsIncludes bug.name "reentrancy" || jsIncludes bug.name "overflow"
      || jsIncludes bug.name "access-control"
  (if highSeverityBugs.length > 0 then
    ["⚠️ " ++ toString highSeverityBugs.length ++ " high severity issues found"] else []) ++
  (if criticalBugs.length > 0 then
    ["🚨 Critical security vulnerabilities detected"] else [])

/-! Section: Pattern-scanning primitives

The analyzer "parses" with JavaScript regular expressions executed in a
`while ((match = re.exec(src)))` loop.  Each concrete pattern below is
compiled by hand into a deterministic matcher `List Char → Option (captures
× rest)`; alternations whose branches can overlap with the continuation are
given explicit continuation backtracking so the compiled matcher agrees with
the backtracking regex engine on every input.  `scanFrom` then reproduces
`exec`'s leftmost-match loop, recording the match index (needed by the
look-behind windows) and resuming after each match. -/

/-- Consume an exact literal. -/
def dropLit : List Char → List Char → Option (List Char)
  | [], s => some s
  | _ :: _, [] => none
  | c :: cs, d :: ds => if d = c then dropLit cs ds else none

/-- Consume an exact literal given as a string. -/
def dropStr (lit : String) (s : List Char) : Option (List Char) :=
  dropLit lit.toList s

/-- Regex `\s*`. -/
def dropWsStar (s : List Char) : List Char := s.dropWhile isJsWs

/-- Regex `\s+`. -/
def dropWsPlus : List Char → Option (List Char)
  | c :: t => if isJsWs c then some (t.dropWhile isJsWs) else none
  | [] => none

/-- Regex word class `\w`. -/
def isJsWordChar (c : Char) : Bool := c.isAlpha || c.isDigit || c = '_'

/-- Regex `(\w+)` (greedy, must be non-empty). -/
def takeWordPlus (s : List Char) : Option (List Char × List Char) :=
  let word := s.takeWhile isJsWordChar
  if word.isEmpty then none else some (word, s.dropWhile isJsWordChar)

/-- Greedy star over a character class, returning the consumed run. -/
def takeClassStar (p : Char → Bool) (s : List Char) : List Char × List Char :=
  (s.takeWhile p, s.dropWhile p)

/-- One character drawn from a class, e.g. regex `['"]`. -/
def dropCharOf (cs : List Char) : List Char → Option (List Char)
  | c :: t => if cs.contains c then some t else none
  | [] => none

/-- First defined value, in order (regex alternation order). -/
def firstSome : List (Option α) → Option α
  | [] => none
  | some a :: _ => some a
  | none :: rest => firstSome rest

/-- Required alternation of literals, e.g. `(?:uint|int|...)`. -/
def dropAlts (alts : List String) (s : List Char) : Option (List Char) :=
  firstSome (alts.map fun kw => dropStr kw s)

/-- Optional alternation of literals committed greedily, usable when
everything after it in the pattern is optional. -/
def dropOptAlts (alts : List String) (s : List Char) : List Char :=
  match dropAlts alts s with
  | some rest => rest
  | none => s

/-- Optional alternation with continuation backtracking: try every
alternative (in order) followed by the continuation, then the empty branch —
exactly the regex engine's order of exploration for `(?:a|b|...)?`. -/
def optAltsThen (alts : List String) (cont : List Char → Option α) (s : List Char) : Option α :=
  match firstSome (alts.map fun kw => dropStr kw s >>= cont) with
  | some a => some a
  | none => cont s

/-- Optional group `(?:returns\s*\([^)]*\))?` with continuation
backtracking. -/
def optReturnsThen (cont : List Char → Option α) (s : List Char) : Option α :=
  match (do
      let s1 ← dropStr "returns" s
      let s1 := dropWsStar s1
      let s1 ← dropStr "(" s1
      let (_, s1) := takeClassStar (fun c => c ≠ ')') s1
      let s1 ← dropStr ")" s1
      cont s1) with
  | some a => some a
  | none => cont s

/-- The loop `while ((match = re.exec(src)) !== null)`: find the leftmost
match at or after the current position, record its start index and captures,
and resume right after the matched text.  `fuel` is the remaining input
length, which bounds the number of steps since every match consumes at least
one character. -/
def scanFrom (tryM : List Char → Option (α × List Char)) : Nat → Nat → List Char → List (Nat × α)
  | 0, _, _ => []
  | _ + 1, _, [] => []
  | fuel + 1, i, c :: t =>
    match tryM (c :: t) with
    | some (a, rest) =>
      let adv := max 1 ((c :: t).length - rest.length)
      (i, a) :: scanFrom tryM fuel (i + adv) ((c :: t).drop adv)
    | none => scanFrom tryM fuel (i + 1) t

/-- Run a compiled pattern over a whole source string. -/
def scanAll (tryM : List Char → Option (α × List Char)) (s : String) : List (Nat × α) :=
  (scanFrom tryM s.toList.length 0 s.toList : List (Nat × α))

/-- JavaScript `sourceCode.substring(index - width, index)` (with the
clamping `substring` applies to negative starts), the look-behind window
used by the visibility/mutability/type heuristics. -/
def jsWindowBefore (sourceCode : String) (index width : Nat) : String :=
  String.mk ((sourceCode.toList.take index).drop (index - width))

/-! Section: Compiled patterns of `extractContractDetails` and `generateManualABI` -/

/-- Pattern `import\s+['"]([^'"]+)['"]`. -/
def matchImportDecl (s : List Char) : Option (String × List Char) := do
  let s ← dropStr "import" s
  let s ← dropWsPlus s
  let s ← dropCharOf ['\'', '"'] s
  let (path, s) := takeClassStar (fun c => c ≠ '\'' && c ≠ '"') s
  if path.isEmpty then none
  else do
    let s ← dropCharOf ['\'', '"'] s
    return (String.mk path, s)

/-- Tail of the declaration-inventory function pattern after the parameter
list: `\s*(?:external|public|internal|private)?\s*(?:view|pure|payable)?\s*(?:returns\s*\([^)]*\))?\s*{`. -/
def matchFunctionDetailTail (s : List Char) : Option (List Char) :=
  let s := dropWsStar s
  optAltsThen ["external", "public", "internal", "private"] (fun s =>
    let s := dropWsStar s
    optAltsThen ["view", "pure", "payable"] (fun s =>
      let s := dropWsStar s
      optReturnsThen (fun s => dropStr "\x7b" (dropWsStar s)) s) s) s

/-- Pattern `function\s+(\w+)\s*\([^)]*\)` followed by
`matchFunctionDetailTail` (the declaration-inventory function pattern). -/
def matchFunctionDetail (s : List Char) : Option (String × List Char) := do
  let s ← dropStr "function" s
  let s ← dropWsPlus s
  let (word, s) ← takeWordPlus s
  let s := dropWsStar s
  let s ← dropStr "(" s
  let (_, s) := takeClassStar (fun c => c ≠ ')') s
  let s ← dropStr ")" s
  let rest ← matchFunctionDetailTail s
  return (String.mk word, rest)

/-- Pattern `modifier\s+(\w+)\s*\([^)]*\)\s*{`. -/
def matchModifierDecl (s : List Char) : Option (String × List Char) := do
  let s ← dropStr "modifier" s
  let s ← dropWsPlus s
  let (word, s) ← takeWordPlus s
  let s := dropWsStar s
  let s ← dropStr "(" s
  let (_, s) := takeClassStar (fun c => c ≠ ')') s
  let s ← dropStr ")" s
  let s := dropWsStar s
  let s ← dropStr "\x7b" s
  return (String.mk word, s)

/-- The Solidity elementary-type alternation shared by both state-variable
patterns and by the look-behind type heuristics. -/
def typeKeywords : List String :=
  ["uint", "int", "bool", "address", "string", "bytes", "mapping"]

/-- Tail `\s*(\w+)\s*;` of the declaration-inventory state-variable
pattern. -/
def matchStateVarTail (s : List Char) : Option (String × List Char) := do
  let s := dropWsStar s
  let (word, s) ← takeWordPlus s
  let s := dropWsStar s
  let s ← dropStr ";" s
  return (String.mk word, s)

/-- Pattern `(?:uint|int|bool|address|string|bytes|mapping)\s+(?:public|private|internal|external)?\s*(\w+)\s*;`. -/
def matchStateVarDetail (s : List Char) : Option (String × List Char) := do
  let s ← dropAlts typeKeywords s
  let s ← dropWsPlus s
  optAltsThen ["public", "private", "internal", "external"] matchStateVarTail s

/-- Pattern `event\s+(\w+)\s*\(([^)]*)\)`, capturing name and (for the ABI
variant) the raw parameter text. -/
def matchEventDecl (s : List Char) : Option ((String × String) × List Char) := do
  let s ← dropStr "event" s
  let s ← dropWsPlus s
  let (word, s) ← takeWordPlus s
  let s := dropWsStar s
  let s ← dropStr "(" s
  let (params, s) := takeClassStar (fun c => c ≠ ')') s
  let s ← dropStr ")" s
  return ((String.mk word, String.mk params), s)

/-- Optional group `(?:returns\s*\(([^)]*)\))?` at the end of the manual-ABI
function pattern, capturing the raw returns text when the group matches. -/
def optReturnsCapture (s : List Char) : Option String × List Char :=
  match (do
      let s1 ← dropStr "returns" s
      let s1 := dropWsStar s1
      let s1 ← dropStr "(" s1
      let (ret, s1) := takeClassStar (fun c => c ≠ ')') s1
      let s1 ← dropStr ")" s1
      pure (ret, s1) : Option (List Char × List Char)) with
  | some (ret, s1) => (some (String.mk ret), s1)
  | none => (none, s)

/-- Pattern `function\s+(\w+)\s*\(([^)]*)\)\s*(?:external|public|internal|private)?\s*(?:view|pure|payable)?\s*(?:returns\s*\(([^)]*)\))?`
of `generateManualABI` (no trailing brace; every trailing group optional, so
greedy commitment agrees with the regex engine). -/
def matchFunctionAbi (s : List Char) : Option ((String × String × Option String) × List Char) := do
  let s ← dropStr "function" s
  let s ← dropWsPlus s
  let (word, s) ← takeWordPlus s
  let s := dropWsStar s
  let s ← dropStr "(" s
  let (params, s) := takeClassStar (fun c => c ≠ ')') s
  let s ← dropStr ")" s
  let s := dropWsStar s
  let s := dropOptAlts ["external", "public", "internal", "private"] s
  let s := dropWsStar s
  let s := dropOptAlts ["view", "pure", "payable"] s
  let s := dropWsStar s
  let (ret, s) := optReturnsCapture s
  return ((String.mk word, String.mk params, ret), s)

/-- Pattern `(?:uint|int|bool|address|string|bytes|mapping)\s+(?:public)\s*(\w+)\s*;`
of `generateManualABI` (the visibility `public` is mandatory here). -/
def matchStateVarAbi (s : List Char) : Option (String × List Char) := do
  let s ← dropAlts typeKeywords s
  let s ← dropWsPlus s
  let s ← dropStr "public" s
  let s := dropWsStar s
  let (word, s) ← takeWordPlus s
  let s := dropWsStar s
  let s ← dropStr ";" s
  return (String.mk word, s)

/-! Section: Look-behind heuristics over a bounded window of preceding text -/

/-- Function `extractVisibility(sourceCode, index)`: substring presence in the 50
characters before the match, defaulting to `internal`. -/
def extractVisibility (sourceCode : String) (index : Nat) : String :=
  let beforeMatch := jsWindowBefore sourceCode index 50
  if jsIncludes beforeMatch "public" then "public"
  else if jsIncludes beforeMatch "private" then "private"
  else if jsIncludes beforeMatch "internal" then "internal"
  else if jsIncludes beforeMatch "external" then "external"
  else "internal"

/-- Function `extractFunctionType(sourceCode, index)`: substring presence in the 50
characters before the match, defaulting to `non-payable`. -/
def extractFunctionType (sourceCode : String) (index : Nat) : String :=
  let beforeMatch := jsWindowBefore sourceCode index 50
  if jsIncludes beforeMatch "view" then "view"
  else if jsIncludes beforeMatch "pure" then "pure"
  else if jsIncludes beforeMatch "payable" then "payable"
  else "non-payable"

/-- The window regex `(uint|int|bool|address|string|bytes|mapping)\s*[^;]*$`
shared by `extractVariableType` and `getVariableType`: the leftmost position
where a type keyword matches and no semicolon follows it to the end of the
window ( `\s*[^;]*$` succeeds exactly when the rest of the window is
semicolon-free); the captured keyword is returned.  At a given position at
most one keyword can match, so alternation order is immaterial. -/
def findTypeKeyword : List Char → Option String
  | [] => none
  | c :: t =>
    match typeKeywords.find? (fun kw =>
        kw.toList.isPrefixOf (c :: t) && !(((c :: t).drop kw.length).contains ';')) with
    | some kw => some kw
    | none => findTypeKeyword t

/-- Function `extractVariableType(sourceCode, index)`: type-keyword search in the 100
characters before the match, defaulting to `unknown`. -/
def extractVariableType (sourceCode : String) (index : Nat) : String :=
  match findTypeKeyword (jsWindowBefore sourceCode index 100).toList with
  | some kw => kw
  | none => "unknown"

/-- Function `getStateMutability(sourceCode, index)`: substring presence in the 100
characters before the match, defaulting to `nonpayable`. -/
def getStateMutability (sourceCode : String) (index : Nat) : String :=
  let beforeMatch := jsWindowBefore sourceCode index 100
  if jsIncludes beforeMatch "pure" then "pure"
  else if jsIncludes beforeMatch "view" then "view"
  else if jsIncludes beforeMatch "payable" then "payable"
  else "nonpayable"

/-- Function `getVariableType(sourceCode, index)`: type-keyword search in the 100
characters before the match, defaulting to `uint256`. -/
def getVariableType (sourceCode : String) (index : Nat) : String :=
  match findTypeKeyword (jsWindowBefore sourceCode index 100).toList with
  | some kw => kw
  | none => "uint256"

/-! Section: Structural extractor (`extractContractDetails`) -/

/-- One entry of `details.functions`. -/
structure FunctionDetail where
  name : String
  visibility : String
  type : String
deriving DecidableEq, Repr

/-- One entry of `details.modifiers` or `details.events` (a bare name). -/
structure NameDetail where
  name : String
deriving DecidableEq, Repr

/-- One entry of `details.stateVariables`. -/
structure StateVarDetail where
  name : String
  type : String
deriving DecidableEq, Repr

/-- The declaration inventory returned by `extractContractDetails`. -/
structure ContractDetails where
  functions : List FunctionDetail
  modifiers : List NameDetail
  stateVariables : List StateVarDetail
  events : List NameDetail
  imports : List String
deriving DecidableEq, Repr

/-- Function `extractContractDetails(sourceCode)`: run the five patterns over the
source and attach the look-behind attributes, in source order. -/
def extractContractDetails (sourceCode : String) : ContractDetails :=
  let imports := (scanAll matchImportDecl sourceCode).map fun p => p.2
  let functions := (scanAll matchFunctionDetail sourceCode).map fun p =>
    { name := p.2, visibility := extractVisibility sourceCode p.1,
      type := extractFunctionType sourceCode p.1 : FunctionDetail }
  let modifiers := (scanAll matchModifierDecl sourceCode).map fun p =>
    { name := p.2 : NameDetail }
  let stateVariables := (scanAll matchStateVarDetail sourceCode).map fun p =>
    { name := p.2, type := extractVariableType sourceCode p.1 : StateVarDetail }
  let events := (scanAll matchEventDecl sourceCode).map fun p =>
    { name := p.2.1 : NameDetail }
  { functions := functions, modifiers := modifiers, stateVariables := stateVariables,
    events := events, imports := imports }

/-! Section: Interface synthesizer (`generateManualABI`, `generateABI`) -/

/-- One ABI parameter as built by `parseFunctionParams`; accessor outputs
are built without the `indexed` field, hence the `Option`. -/
structure AbiParam where
  type : String
  name : String
  internalType : String
  indexed : Option Bool
deriving DecidableEq, Repr

/-- One ABI entry: a function object or an event object. -/
inductive AbiEntry where
  | func (name : String) (inputs : List AbiParam) (outputs : List AbiParam)
      (stateMutability : String)
  | event (name : String) (inputs : List AbiParam) (anonymous : Bool)
deriving DecidableEq, Repr

/-- Whether an ABI entry is a function object with the given name. -/
def abiHasFunctionNamed (entries : List AbiEntry) (n : String) : Bool :=
  entries.any fun e =>
    match e with
    | AbiEntry.func name _ _ _ => name == n
    | AbiEntry.event _ _ _ => false

/-- JavaScript `cleanParam.split(/\s+/)` for the already-trimmed strings the
parameter parser feeds it: the whitespace-separated tokens, or `[""]` for
the empty string. -/
def splitWsTokensGo : List Char → List Char → List (List Char)
  | [], acc => if acc.isEmpty then [] else [acc.reverse]
  | c :: t, acc =>
    if isJsWs c then
      if acc.isEmpty then splitWsTokensGo t [] else acc.reverse :: splitWsTokensGo t []
    else splitWsTokensGo t (c :: acc)

/-- Tokenization used for `parts[0]`/`parts[1]` of a parameter. -/
def jsSplitWsTokens (s : String) : List String :=
  if s = "" then [""] else (splitWsTokensGo s.toList []).map String.mk

/-- JavaScript `s.replace(pat, repl)` with a string pattern: first
occurrence only. -/
def replaceFirstList (pat repl : List Char) : List Char → List Char
  | [] => []
  | c :: t =>
    if pat.isPrefixOf (c :: t) then repl ++ (c :: t).drop pat.length
    else c :: replaceFirstList pat repl t

/-- JavaScript `s.replace('indexed', '')` and friends. -/
def jsReplaceFirst (s pat repl : String) : String :=
  String.mk (replaceFirstList pat.toList repl.toList s.toList)

/-- JavaScript `sourceCode.split(',')`. -/
def splitCommaAux : List Char → List Char → List (List Char)
  | [], acc => [acc.reverse]
  | c :: t, acc =>
    if c = ',' then acc.reverse :: splitCommaAux t [] else splitCommaAux t (c :: acc)

/-- Comma split of a raw parameter list (naive, as in the source). -/
def jsSplitComma (s : String) : List String :=
  (splitCommaAux s.toList []).map String.mk

/-- The per-parameter body of `parseFunctionParams`: `null` (dropped by
`.filter(Boolean)`) for a blank entry, otherwise type/name from the first
two whitespace tokens after removing one `indexed`. -/
def parseParamItem (param : String) : Option AbiParam :=
  let trimmed := jsTrim param
  if trimmed = "" then none
  else
    let isIndexed := jsIncludes trimmed "indexed"
    let cleanParam := jsTrim (jsReplaceFirst trimmed "indexed" "")
    let parts := jsSplitWsTokens cleanParam
    let ptype := parts.headD ""
    let pname := (parts.get? 1).getD ""
    some { type := ptype, name := pname, internalType := ptype, indexed := some isIndexed }

/-- Function `parseFunctionParams(params)`: empty for a blank list, else split on
commas and keep the non-blank entries. -/
def parseFunctionParams (params : String) : List AbiParam :=
  if params = "" || jsTrim params = "" then []
  else (jsSplitComma params).filterMap parseParamItem

/-- Function `parseEventParams` delegates to `parseFunctionParams`. -/
def parseEventParams (params : String) : List AbiParam :=
  parseFunctionParams params

/-- Function `generateManualABI(sourceCode)`: function objects (skipping constructors
and functions with `internal` in the 50-character look-behind), then event
objects, then implicit accessors for `public` state variables. -/
def generateManualABI (sourceCode : String) : List AbiEntry :=
  let functionEntries := (scanAll matchFunctionAbi sourceCode).filterMap fun p =>
    let index := p.1
    let functionName := p.2.1
    let params := p.2.2.1
    let returnsCap := p.2.2.2
    if functionName = "constructor"
        || jsIncludes (jsWindowBefore sourceCode index 50) "internal" then none
    else
      let inputs := parseFunctionParams params
      let outputs := match returnsCap with
        | some r => if r = "" then [] else parseFunctionParams r
        | none => []
      some (AbiEntry.func functionName inputs outputs (getStateMutability sourceCode index))
  let eventEntries := (scanAll matchEventDecl sourceCode).map fun p =>
    AbiEntry.event p.2.1 (parseEventParams p.2.2) false
  let varEntries := (scanAll matchStateVarAbi sourceCode).map fun p =>
    AbiEntry.func p.2 []
      [{ type := getVariableType sourceCode p.1, name := "",
         internalType := getVariableType sourceCode p.1, indexed := none }] "view"
  functionEntries ++ eventEntries ++ varEntries

/-- Function `generateABI(sourceCode)`: the compiler toolchain's ABI when `solc`
succeeded and found a contract (that external outcome is a parameter of the
embedding), otherwise the heuristic `generateManualABI` fallback. -/
def generateABI (solcAbi : Option (List AbiEntry)) (sourceCode : String) : List AbiEntry :=
  match solcAbi with
  | some abi => abi
  | none => generateManualABI sourceCode

/-! Section: Report assembler (`analyzeContract`) -/

/-- The analysis record assembled by `analyzeContract` (the `timestamp`
field, an I/O clock read, is not modelled). -/
structure Analysis where
  riskScore : Int
  auditGrade : String
  tokenType : String
  bugs : List Bug
  linting : List LintIssue
  contractDetails : ContractDetails
  aiSummary : Option String
  abi : List AbiEntry
  unsafePatterns : List String
  deploymentWarnings : List String
deriving DecidableEq, Repr

/-- The pure assembly performed by `analyzeContract(sourceCode, useOpenAI)`
once the external-world outcomes are fixed: `slitherResults` and
`solhintResults` are what the external backends returned (empty on any
failure), `solcAbi` is the compiler outcome, `aiSummary` the summarizer
outcome.  Each empty external diagnostic list is replaced wholly by the
matching heuristic backend's output. -/
def analyzeContract (sourceCode : String) (slitherResults : List Bug)
    (solhintResults : List LintIssue) (solcAbi : Option (List AbiEntry))
    (aiSummary : Option String) : Analysis :=
  let contractDetails := extractContractDetails sourceCode
  let finalSlitherResults :=
    if slitherResults.length = 0 then detectManualVulnerabilities sourceCode
    else slitherResults
  let finalSolhintResults :=
    if solhintResults.length = 0 then detectBasicLintingIssues sourceCode
    else solhintResults
  let riskScore := computeRiskScore finalSlitherResults finalSolhintResults
  let auditGrade := computeAuditGrade riskScore finalSlitherResults finalSolhintResults
  { riskScore := riskScore, auditGrade := auditGrade,
    tokenType := detectTokenType sourceCode,
    bugs := finalSlitherResults, linting := finalSolhintResults,
    contractDetails := contractDetails, aiSummary := aiSummary,
    abi := generateABI solcAbi sourceCode,
    unsafePatterns := detectUnsafePatterns sourceCode,
    deploymentWarnings := generateDeploymentWarnings finalSlitherResults finalSolhintResults }

/-! Section: Resource model of the full `analyzeContract` body

The method materializes the source to `temp/contract.sol`, runs the
pipeline inside a `try { ... } catch (error) { throw error; }` with
`fs.remove(contractFile)` as the last statement of the `try` block — there
is no `finally`.  The embedding passes the file state explicitly: the
environment says whether the write succeeds and whether anything awaited
inside the `try` after materialization throws; the second component of the
result is whether the temporary file still exists when control leaves the
method. -/

/-- External-world outcomes of one `analyzeContract` invocation. -/
structure AnalyzeEnv where
  writeOk : Bool
  pipelineError : Option String
deriving DecidableEq, Repr

/-- One run of the `analyzeContract` method body.  Returns the outcome and
whether `temp/contract.sol` still exists afterwards: the `fs.remove` runs
only when every step of the `try` block completed, because the `catch`
rethrows without cleanup. -/
def analyzeContractRun (sourceCode : String) (slitherResults : List Bug)
    (solhintResults : List LintIssue) (solcAbi : Option (List AbiEntry))
    (aiSummary : Option String) (env : AnalyzeEnv) : Except String Analysis × Bool :=
  if env.writeOk = false then
    (Except.error "EACCES: cannot write temp/contract.sol", false)
  else
    match env.pipelineError with
    | some e => (Except.error e, true)
    | none =>
      (Except.ok (analyzeContract sourceCode slitherResults solhintResults solcAbi aiSummary),
       false)

/-! Section: The `/api/analyze` route of the backend server -/

/-- The `app.post('/api/analyze')` handler: reject a missing or empty
`sourceCode` body field with HTTP 400 before ever calling the analyzer
(JavaScript `!sourceCode` is true exactly for `undefined` and `''` here),
otherwise run the analyzer and answer 200, or 500 when it throws.  The
second component reports whether the temporary source file was created
during the request. -/
def apiAnalyzeHandler (sourceCode : Option String) (slitherResults : List Bug)
    (solhintResults : List LintIssue) (solcAbi : Option (List AbiEntry))
    (aiSummary : Option String) (env : AnalyzeEnv) : Nat × Bool :=
  match sourceCode with
  | none => (400, false)
  | some s =>
    if s = "" then (400, false)
    else
      match analyzeContractRun s slitherResults solhintResults solcAbi aiSummary env with
      | (Except.ok _, _) => (200, env.writeOk)
      | (Except.error _, _) => (500, env.writeOk)

/-! Section: General helper lemmas -/

/-- Membership in a conditionally emitted singleton block. -/
theorem mem_ite_singleton {α : Type} {c : Prop} [Decidable c] {a x : α} :
    a ∈ (if c then [x] else []) ↔ c ∧ a = x := by
  split
  · next h => simp [h]
  · next h => simp [h]

/-- Folding an accumulating sum equals the initial value plus the sum of the
mapped list. -/
theorem foldl_add_map_sum {α : Type} (f : α → Int) (l : List α) (n : Int) :
    l.foldl (fun acc a => acc + f a) n = n + (l.map f).sum := by
  induction l generalizing n with
  | nil => simp
  | cons a t ih => simp [List.foldl_cons, ih]; ring

/-- Security severity weights are never negative. -/
theorem securitySeverityScore_nonneg (sev : String) : 0 ≤ securitySeverityScore sev := by
  unfold securitySeverityScore
  split_ifs <;> norm_num

/-- Style severity weights are never negative. -/
theorem lintSeverityScore_nonneg (sev : String) : 0 ≤ lintSeverityScore sev := by
  unfold lintSeverityScore
  split_ifs <;> norm_num

/-! Section: C2 -/

/-- C2: for every pair of diagnostic lists the risk score equals the
per-severity weighted sum — High 25, Medium 15, Low 5, Informational 1 over
security diagnostics, Error 3, Warning 1 over style diagnostics — clamped to
[0, 100], with every severity outside those recognized (case-insensitive)
forms contributing 0. -/
theorem computeRiskScore_is_clamped_weighted_sum (slitherResults : List Bug)
    (solhintResults : List LintIssue) :
    computeRiskScore slitherResults solhintResults =
      min 100 (max 0 ((slitherResults.map fun b => securitySeverityScore b.severity).sum
        + (solhintResults.map fun i => lintSeverityScore i.severity).sum)) ∧
    securitySeverityScore "High" = 25 ∧ securitySeverityScore "Medium" = 15 ∧
    securitySeverityScore "Low" = 5 ∧ securitySeverityScore "Informational" = 1 ∧
    lintSeverityScore "Error" = 3 ∧ lintSeverityScore "Warning" = 1 ∧
    (∀ sev, jsToLower sev ∉ (["high", "medium", "low", "informational"] : List String) →
      securitySeverityScore sev = 0) ∧
    (∀ sev, jsToLower sev ∉ (["error", "warning"] : List String) →
      lintSeverityScore sev = 0) := by
  refine ⟨?_, by decide, by decide, by decide, by decide, by decide, by decide, ?_, ?_⟩
  · simp only [computeRiskScore]
    rw [foldl_add_map_sum, foldl_add_map_sum]
    norm_num
  · intro sev h
    simp only [List.mem_cons, List.not_mem_nil, or_false, not_or] at h
    obtain ⟨h1, h2, h3, h4⟩ := h
    unfold securitySeverityScore
    split_ifs <;> first | rfl | contradiction
  · intro sev h
    simp only [List.mem_cons, List.not_mem_nil, or_false, not_or] at h
    obtain ⟨h1, h2⟩ := h
    unfold lintSeverityScore
    split_ifs <;> first | rfl | contradiction

/-- Witness for C2 at concrete inputs: the clamp formula at one diagnostic of
each kind, and the zero weight of an unrecognized severity. -/
theorem computeRiskScore_is_clamped_weighted_sum_witness :
    securitySeverityScore "Critical" = 0 ∧ lintSeverityScore "info" = 0 := by
  refine ⟨?_, ?_⟩
  · exact (computeRiskScore_is_clamped_weighted_sum [] []).2.2.2.2.2.2.2.1 "Critical" (by decide)
  · exact (computeRiskScore_is_clamped_weighted_sum [] []).2.2.2.2.2.2.2.2 "info" (by decide)

/-! Section: C6 -/

/-- C6: the risk score is monotone under appending one more diagnostic to
either list, and always lies in [0, 100]. -/
theorem computeRiskScore_monotone_and_bounded (slitherResults : List Bug)
    (solhintResults : List LintIssue) (b : Bug) (issue : LintIssue) :
    computeRiskScore slitherResults solhintResults ≤
      computeRiskScore (slitherResults ++ [b]) solhintResults ∧
    computeRiskScore slitherResults solhintResults ≤
      computeRiskScore slitherResults (solhintResults ++ [issue]) ∧
    0 ≤ computeRiskScore slitherResults solhintResults ∧
    computeRiskScore slitherResults solhintResults ≤ 100 := by
  have hchar : ∀ (l : List Bug) (m : List LintIssue), computeRiskScore l m =
      min 100 (max 0 ((l.map fun x => securitySeverityScore x.severity).sum
        + (m.map fun i => lintSeverityScore i.severity).sum)) :=
    fun l m => (computeRiskScore_is_clamped_weighted_sum l m).1
  refine ⟨?_, ?_, ?_, ?_⟩
  · rw [hchar, hchar]
    refine min_le_min le_rfl (max_le_max le_rfl ?_)
    simp only [List.map_append, List.sum_append, List.map_cons, List.map_nil,
      List.sum_cons, List.sum_nil]
    have := securitySeverityScore_nonneg b.severity
    omega
  · rw [hchar, hchar]
    refine min_le_min le_rfl (max_le_max le_rfl ?_)
    simp only [List.map_append, List.sum_append, List.map_cons, List.map_nil,
      List.sum_cons, List.sum_nil]
    have := lintSeverityScore_nonneg issue.severity
    omega
  · rw [hchar]
    exact le_min (by norm_num) (le_max_left 0 _)
  · rw [hchar]
    exact min_le_left 100 _

/-! Section: C1 -/

/-- The escalation rule exactly as the specification words it: some security
diagnostic's name contains, case-insensitively, one of the six marker
substrings. -/
def specEscalates (slitherResults : List Bug) : Prop :=
  ∃ b ∈ slitherResults,
    (jsIncludes (jsToLower b.name) "proxy" = true ∨
     jsIncludes (jsToLower b.name) "upgradeable" = true ∨
     jsIncludes (jsToLower b.name) "mint" = true ∨
     jsIncludes (jsToLower b.name) "unrestricted" = true ∨
     jsIncludes (jsToLower b.name) "suicide" = true ∨
     jsIncludes (jsToLower b.name) "selfdestruct" = true)

instance (slitherResults : List Bug) : Decidable (specEscalates slitherResults) := by
  unfold specEscalates
  infer_instance

/-- The three grouped `.some(...)` checks of `computeAuditGrade` together
test exactly the specification's six-marker escalation condition. -/
theorem grouped_any_iff_specEscalates (slitherResults : List Bug) :
    ((slitherResults.any fun bug =>
        jsIncludes (jsToLower bug.name) "proxy" || jsIncludes (jsToLower bug.name) "upgradeable")
      || (slitherResults.any fun bug =>
        jsIncludes (jsToLower bug.name) "mint" || jsIncludes (jsToLower bug.name) "unrestricted")
      || (slitherResults.any fun bug =>
        jsIncludes (jsToLower bug.name) "suicide" || jsIncludes (jsToLower bug.name) "selfdestruct"))
      = true ↔ specEscalates slitherResults := by
  simp only [Bool.or_eq_true, List.any_eq_true, specEscalates]
  constructor
  · rintro ((⟨b, hb, h | h⟩ | ⟨b, hb, h | h⟩) | ⟨b, hb, h | h⟩) <;> exact ⟨b, hb, by tauto⟩
  · rintro ⟨b, hb, h | h | h | h | h | h⟩
    · exact Or.inl (Or.inl ⟨b, hb, Or.inl h⟩)
    · exact Or.inl (Or.inl ⟨b, hb, Or.inr h⟩)
    · exact Or.inl (Or.inr ⟨b, hb, Or.inl h⟩)
    · exact Or.inl (Or.inr ⟨b, hb, Or.inr h⟩)
    · exact Or.inr ⟨b, hb, Or.inl h⟩
    · exact Or.inr ⟨b, hb, Or.inr h⟩

/-- C1: the audit grade is C exactly when the score exceeds 70 or some
security diagnostic name carries one of the six escalation markers (even at
score 0); otherwise B above 40, else A.  Boundary: 71 alone forces C, 70
alone does not (it yields B). -/
theorem computeAuditGrade_policy (riskScore : Int) (slitherResults : List Bug)
    (solhintResults : List LintIssue) :
    computeAuditGrade riskScore slitherResults solhintResults =
      (if 70 < riskScore ∨ specEscalates slitherResults then "C"
       else if 40 < riskScore then "B" else "A") ∧
    computeAuditGrade 71 [] [] = "C" ∧
    computeAuditGrade 70 [] [] ≠ "C" := by
  refine ⟨?_, by decide, by decide⟩
  simp only [computeAuditGrade]
  by_cases h : 70 < riskScore ∨ specEscalates slitherResults
  · rw [if_pos h]
    have hcond : ((slitherResults.any fun bug =>
          jsIncludes (jsToLower bug.name) "proxy" || jsIncludes (jsToLower bug.name) "upgradeable")
        || (slitherResults.any fun bug =>
          jsIncludes (jsToLower bug.name) "mint" || jsIncludes (jsToLower bug.name) "unrestricted")
        || (slitherResults.any fun bug =>
          jsIncludes (jsToLower bug.name) "suicide" || jsIncludes (jsToLower bug.name) "selfdestruct")
        || decide (riskScore > 70)) = true := by
      rcases h with h | h
      · simp [h]
      · rw [Bool.or_eq_true]
        exact Or.inl ((grouped_any_iff_specEscalates slitherResults).mpr h)
    rw [if_pos hcond]
  · rw [if_neg h]
    push_neg at h
    obtain ⟨h70, hesc⟩ := h
    have hcond : ¬ (((slitherResults.any fun bug =>
          jsIncludes (jsToLower bug.name) "proxy" || jsIncludes (jsToLower bug.name) "upgradeable")
        || (slitherResults.any fun bug =>
          jsIncludes (jsToLower bug.name) "mint" || jsIncludes (jsToLower bug.name) "unrestricted")
        || (slitherResults.any fun bug =>
          jsIncludes (jsToLower bug.name) "suicide" || jsIncludes (jsToLower bug.name) "selfdestruct")
        || decide (riskScore > 70)) = true) := by
      rw [Bool.or_eq_true, not_or]
      refine ⟨?_, ?_⟩
      · intro hx
        exact hesc ((grouped_any_iff_specEscalates slitherResults).mp hx)
      · simpa using h70
    rw [if_neg hcond]

/-! Section: C3 -/

/-- C3: per category, a non-empty external result list is kept exactly and
the heuristic output never appears; an empty one is replaced wholly by the
heuristic backend's output. -/
theorem pipeline_substitutes_heuristics_only_on_empty (sourceCode : String)
    (slitherResults : List Bug) (solhintResults : List LintIssue)
    (solcAbi : Option (List AbiEntry)) (aiSummary : Option String) :
    (slitherResults = [] →
      (analyzeContract sourceCode slitherResults solhintResults solcAbi aiSummary).bugs
        = detectManualVulnerabilities sourceCode) ∧
    (slitherResults ≠ [] →
      (analyzeContract sourceCode slitherResults solhintResults solcAbi aiSummary).bugs
        = slitherResults) ∧
    (solhintResults = [] →
      (analyzeContract sourceCode slitherResults solhintResults solcAbi aiSummary).linting
        = detectBasicLintingIssues sourceCode) ∧
    (solhintResults ≠ [] →
      (analyzeContract sourceCode slitherResults solhintResults solcAbi aiSummary).linting
        = solhintResults) := by
  refine ⟨?_, ?_, ?_, ?_⟩ <;> intro h <;>
    simp [analyzeContract, List.length_eq_zero, h]

/-- Witness for C3: both branches exercised at concrete inputs. -/
theorem pipeline_substitutes_heuristics_only_on_empty_witness :
    (analyzeContract "x" [] [] none none).bugs = detectManualVulnerabilities "x" ∧
    (analyzeContract "x"
      [{ name := "n", description := "d", severity := "High", confidence := "High",
         line := 1, function := "f", file := "contract.sol" }] [] none none).bugs =
      [{ name := "n", description := "d", severity := "High", confidence := "High",
         line := 1, function := "f", file := "contract.sol" }] := by
  constructor
  · exact (pipeline_substitutes_heuristics_only_on_empty "x" [] [] none none).1 rfl
  · exact (pipeline_substitutes_heuristics_only_on_empty "x"
      [{ name := "n", description := "d", severity := "High", confidence := "High",
         line := 1, function := "f", file := "contract.sol" }] [] none none).2.1 (by simp)

/-! Section: C4 -/

/-- C4 counterexample: analyzing `selfdestruct(owner)` with both external
backends empty does put the kill-switch entry into `unsafePatterns`, yet the
audit grade is A — not the C the claim requires — because the heuristic
diagnostic is named `Self-Destruct Function`, which contains neither
`suicide` nor `selfdestruct`. -/
theorem selfdestruct_grade_counterexample :
    "Kill Switch - Contract can be destroyed" ∈
      (analyzeContract "selfdestruct(owner)" [] [] none none).unsafePatterns ∧
    (analyzeContract "selfdestruct(owner)" [] [] none none).auditGrade = "A" ∧
    ¬(analyzeContract "selfdestruct(owner)" [] [] none none).auditGrade = "C" := by
  decide

/-- C4 amended: every source containing `selfdestruct` yields the
kill-switch entry in `unsafePatterns` and the High `Self-Destruct Function`
diagnostic from the heuristic security backend, but that diagnostic's name
carries no grade-escalation marker, so the grade is not thereby forced to
C. -/
theorem selfdestruct_killswitch_no_escalation (sourceCode : String)
    (h : jsIncludes (jsToLower sourceCode) "selfdestruct" = true) :
    "Kill Switch - Contract can be destroyed" ∈ detectUnsafePatterns sourceCode ∧
    ({ name := "Self-Destruct Function",
       description := "Contract can be destroyed - potential loss of funds",
       severity := "High", confidence := "High", line := 1,
       function := "Multiple", file := "contract.sol" } : Bug) ∈
      detectManualVulnerabilities sourceCode ∧
    jsIncludes (jsToLower "Self-Destruct Function") "suicide" = false ∧
    jsIncludes (jsToLower "Self-Destruct Function") "selfdestruct" = false := by
  have hcond : (jsIncludes (jsToLower sourceCode) "selfdestruct"
      || jsIncludes (jsToLower sourceCode) "suicide") = true := by simp [h]
  refine ⟨?_, ?_, by decide, by decide⟩
  · simp [detectUnsafePatterns, hcond]
  · simp [detectManualVulnerabilities, hcond]

/-- Witness for C4's amended statement at the concrete counterexample
input. -/
theorem selfdestruct_killswitch_no_escalation_witness :
    "Kill Switch - Contract can be destroyed" ∈ detectUnsafePatterns "selfdestruct(owner)" :=
  (selfdestruct_killswitch_no_escalation "selfdestruct(owner)" (by decide)).1

/-! Section: C5 -/

/-- C5 counterexample: with the write succeeding and a backend crash thrown
inside the `try` block, the method rethrows and the temporary file is still
present — the cleanup is not in a `finally`. -/
theorem tempfile_cleanup_counterexample :
    (analyzeContractRun "contract C { }" [] [] none none
      { writeOk := true, pipelineError := some "slither invocation crashed" }).1 =
      Except.error "slither invocation crashed" ∧
    (analyzeContractRun "contract C { }" [] [] none none
      { writeOk := true, pipelineError := some "slither invocation crashed" }).2 = true := by
  exact ⟨rfl, rfl⟩

/-- C5 amended: the temporary file survives the call exactly when it was
materialized and the pipeline then failed; it is deleted on the success path
(and never created when the write itself fails), since the `fs.remove` is
the last statement of the `try` block rather than a `finally`. -/
theorem tempfile_persists_iff_pipeline_error (sourceCode : String)
    (slitherResults : List Bug) (solhintResults : List LintIssue)
    (solcAbi : Option (List AbiEntry)) (aiSummary : Option String) (env : AnalyzeEnv) :
    (analyzeContractRun sourceCode slitherResults solhintResults solcAbi aiSummary env).2 = true
      ↔ env.writeOk = true ∧ env.pipelineError ≠ none := by
  unfold analyzeContractRun
  rcases env with ⟨w, pe⟩
  rcases w <;> rcases pe <;> simp

/-! Section: C7 -/

/-- C7: the structural extractor is a total function of the text (so two
runs on identical text agree definitionally), and the empty string yields
the all-empty inventory. -/
theorem extractContractDetails_total_empty :
    extractContractDetails "" =
      { functions := [], modifiers := [], stateVariables := [], events := [],
        imports := [] } ∧
    ∀ sourceCode : String, extractContractDetails sourceCode = extractContractDetails sourceCode :=
  ⟨by decide, fun _ => rfl⟩

/-! Section: C8 -/

/-- C8: for the unguarded-withdraw source with the external security backend
empty and the compiler unavailable, the final security diagnostics contain
the High reentrancy entry with function `Multiple` and line 1, and the
heuristic-fallback ABI still contains a function entry named `withdraw`. -/
theorem withdraw_reentrancy_scenario :
    ({ name := "Potential Reentrancy",
       description := "External calls without reentrancy protection detected",
       severity := "High", confidence := "Medium", line := 1,
       function := "Multiple", file := "contract.sol" } : Bug) ∈
      (analyzeContract "function withdraw() external { token.call(...) }" [] [] none none).bugs ∧
    abiHasFunctionNamed
      (analyzeContract "function withdraw() external { token.call(...) }" [] [] none none).abi
      "withdraw" = true := by
  decide

/-! Section: C9 -/

/-- C9: the analyze route answers 400 exactly for a missing or empty
`sourceCode` (never for a non-empty one), and on that rejection path the
temporary source file is never created. -/
theorem analyze_route_validation (sourceCode : Option String) (slitherResults : List Bug)
    (solhintResults : List LintIssue) (solcAbi : Option (List AbiEntry))
    (aiSummary : Option String) (env : AnalyzeEnv) :
    ((apiAnalyzeHandler sourceCode slitherResults solhintResults solcAbi aiSummary env).1 = 400
      ↔ sourceCode = none ∨ sourceCode = some "") ∧
    (sourceCode = none ∨ sourceCode = some "" →
      (apiAnalyzeHandler sourceCode slitherResults solhintResults solcAbi aiSummary env).2
        = false) := by
  rcases sourceCode with _ | s
  · simp [apiAnalyzeHandler]
  · by_cases hs : s = ""
    · subst hs
      simp [apiAnalyzeHandler]
    · rcases hrun : analyzeContractRun s slitherResults solhintResults solcAbi aiSummary env
        with ⟨res, fl⟩
      rcases res with e | a <;> simp [apiAnalyzeHandler, hs, hrun]

/-- Witness for C9 at concrete inputs: the empty string is rejected without
creating the file, and rejection indeed reports status 400. -/
theorem analyze_route_validation_witness :
    (apiAnalyzeHandler (some "") [] [] none none
      { writeOk := true, pipelineError := none }).2 = false :=
  (analyze_route_validation (some "") [] [] none none
    { writeOk := true, pipelineError := none }).2 (Or.inr rfl)

/-! Section: C10 -/

/-- Appending concatenates the underlying character lists. -/
theorem string_data_append (s t : String) : (s ++ t).data = s.data ++ t.data := by
  cases s
  cases t
  rfl

/-- The high-severity-count warning is never the critical warning (their
first characters differ). -/
theorem highWarning_ne_criticalWarning (x y : String) :
    ("⚠️ " ++ x) ++ y ≠ "🚨 Critical security vulnerabilities detected" := by
  intro h
  have hd : ((("⚠️ " ++ x) ++ y).data).head? =
      (("🚨 Critical security vulnerabilities detected" : String).data).head? := by rw [h]
  rw [string_data_append, string_data_append] at hd
  have h1 : ("⚠️ " : String).data = '⚠' :: '️' :: [' '] := rfl
  have h2 : (("🚨 Critical security vulnerabilities detected" : String).data).head?
      = some '🚨' := rfl
  rw [h1, h2, List.cons_append, List.cons_append, List.head?_cons] at hd
  exact absurd hd (by decide)

/-- Symmetric orientation of `highWarning_ne_criticalWarning` for `simp`. -/
theorem criticalWarning_ne_highWarning (x y : String) :
    "🚨 Critical security vulnerabilities detected" ≠ ("⚠️ " ++ x) ++ y :=
  (highWarning_ne_criticalWarning x y).symm

/-- A filtered list is non-trivial exactly when some element passes. -/
theorem filter_length_pos_iff {α : Type} (p : α → Bool) (l : List α) :
    (l.filter p).length > 0 ↔ ∃ a ∈ l, p a = true := by
  rw [gt_iff_lt, List.length_pos, Ne, List.filter_eq_nil_iff]
  push_neg
  simp

/-- No diagnostic the heuristic security backend can emit has a name
containing `reentrancy`, `overflow` or `access-control` (lowercase). -/
theorem detectManual_never_critical (sourceCode : String) :
    ∀ b ∈ detectManualVulnerabilities sourceCode,
      ¬(jsIncludes b.name "reentrancy" = true ∨ jsIncludes b.name "overflow" = true
        ∨ jsIncludes b.name "access-control" = true) := by
  intro b hb
  simp only [detectManualVulnerabilities, List.mem_append, mem_ite_singleton] at hb
  rcases hb with (((((((⟨-, rfl⟩ | ⟨-, rfl⟩) | ⟨-, rfl⟩) | ⟨-, rfl⟩) | ⟨-, rfl⟩)
    | ⟨-, rfl⟩) | ⟨-, rfl⟩) | ⟨-, rfl⟩) <;> decide

/-- C10: the count warning appears exactly when some security diagnostic's
severity is the exact string `High`, the critical warning exactly when some
diagnostic's name contains one of the three lowercase substrings, and a
heuristic-only analysis therefore never carries the critical warning. -/
theorem deploymentWarnings_case_sensitive (slitherResults : List Bug)
    (solhintResults : List LintIssue) (sourceCode : String) :
    ((("⚠️ " ++ toString (slitherResults.filter fun b => b.severity == "High").length)
        ++ " high severity issues found") ∈ generateDeploymentWarnings slitherResults solhintResults
      ↔ ∃ b ∈ slitherResults, b.severity = "High") ∧
    ("🚨 Critical security vulnerabilities detected" ∈
        generateDeploymentWarnings slitherResults solhintResults
      ↔ ∃ b ∈ slitherResults, (jsIncludes b.name "reentrancy" = true ∨
          jsIncludes b.name "overflow" = true ∨ jsIncludes b.name "access-control" = true)) ∧
    "🚨 Critical security vulnerabilities detected" ∉
      generateDeploymentWarnings (detectManualVulnerabilities sourceCode) solhintResults := by
  have hmain : ∀ (l : List Bug) (m : List LintIssue),
      ((("⚠️ " ++ toString (l.filter fun b => b.severity == "High").length)
          ++ " high severity issues found") ∈ generateDeploymentWarnings l m
        ↔ ∃ b ∈ l, b.severity = "High") ∧
      ("🚨 Critical security vulnerabilities detected" ∈ generateDeploymentWarnings l m
        ↔ ∃ b ∈ l, (jsIncludes b.name "reentrancy" = true ∨
            jsIncludes b.name "overflow" = true ∨ jsIncludes b.name "access-control" = true)) := by
    intro l m
    constructor
    · simp only [generateDeploymentWarnings, List.mem_append, mem_ite_singleton,
        filter_length_pos_iff]
      simp [highWarning_ne_criticalWarning, beq_iff_eq]
    · simp only [generateDeploymentWarnings, List.mem_append, mem_ite_singleton,
        filter_length_pos_iff]
      simp [criticalWarning_ne_highWarning, Bool.or_eq_true, or_assoc]
  refine ⟨(hmain slitherResults solhintResults).1, (hmain slitherResults solhintResults).2, ?_⟩
  rw [(hmain (detectManualVulnerabilities sourceCode) solhintResults).2]
  rintro ⟨b, hb, hor⟩
  exact detectManual_never_critical sourceCode b hb hor
